import Mathlib

/-!
Verification of the stir plugin (brisvag/mtools): a shallow embedding of the
per-atom classification and presentation logic of src/stir/mt_nice.py and of
the settings exporter src/stir/store_settings.py, together with theorems
settling the specification claims about them.

Conventions of the embedding:
* strings are Lean String values; the regex matching of set_vdw.alter_vdw is
  embedded as explicit anchored matchers over the character list;
* the vdw radii 2.35 / 2.00 / 1.65 and the stick radius 0.7 are exact
  rationals;
* side-effecting host (PyMOL) calls are embedded as command traces: a function
  that issues host calls is a pure function returning the list of calls in
  issue order.
-/

namespace Stir

/-! ### Bead classifier: set_vdw.alter_vdw (src/stir/mt_nice.py lines 226-236) -/

/-- The regex character class \w (and its subclass \d) as used on bead-type
codes, restricted to ASCII: alphanumeric or underscore.  In the source the
second character class is written [\w\d], which is the same set as \w. -/
def isWordChar (c : Char) : Bool := c.isAlphanum || c == '_'

/-- Membership in the character class [QPNCX]. -/
def inQPNCX (c : Char) : Bool :=
  c == 'Q' || c == 'P' || c == 'N' || c == 'C' || c == 'X'

/-- Anchored match of the regular-bead regex [QPNCX][\w\d]|W under re.match
semantics: the pattern must match at the very start of the string (either a
[QPNCX] character followed by a word character, or the single letter W). -/
def matchRegular : List Char → Bool
  | c1 :: c2 :: _ => (inQPNCX c1 && isWordChar c2) || c1 == 'W'
  | [c1] => c1 == 'W'
  | [] => false

/-- Anchored match of the small-bead regex S([QPNCX][\w\d]|W): the letter S
followed by a match of the regular-bead group. -/
def matchSmall : List Char → Bool
  | c :: rest => c == 'S' && matchRegular rest
  | [] => false

/-- Anchored match of the tiny-bead regex T([QPNCX][\w\d]|W): the letter T
followed by a match of the regular-bead group. -/
def matchTiny : List Char → Bool
  | c :: rest => c == 'T' && matchRegular rest
  | [] => false

/-- The ordered vdw_patterns dictionary of set_vdw.alter_vdw: pattern-radius
pairs in insertion order (Python dicts iterate in insertion order). -/
def vdw_patterns : List ((List Char → Bool) × ℚ) :=
  [(matchRegular, 2.35), (matchSmall, 2.00), (matchTiny, 1.65)]

/-- The lookup loop of alter_vdw: scan the rules in order, return the radius of
the first matching pattern, and fall through to the fallback when none match. -/
def firstMatch : List ((List Char → Bool) × ℚ) → List Char → ℚ → ℚ
  | [], _, vdw => vdw
  | (p, r) :: rest, l, vdw => if p l then r else firstMatch rest l vdw

/-- set_vdw.alter_vdw(elem, vdw): run the rule loop on the bead code and return
the original vdw when no pattern matches. -/
def alter_vdw (elem : String) (vdw : ℚ) : ℚ :=
  firstMatch vdw_patterns elem.toList vdw

lemma matchRegular_head_mem {c : Char} {rest : List Char}
    (h : matchRegular (c :: rest) = true) : (inQPNCX c || c == 'W') = true := by
  match rest with
  | [] =>
    simp only [matchRegular] at h
    simp [h]
  | c2 :: t =>
    simp only [matchRegular, Bool.or_eq_true, Bool.and_eq_true] at h
    rcases h with ⟨hq, _⟩ | hw
    · simp [hq]
    · simp [hw]

lemma matchSmall_head {c : Char} {rest : List Char}
    (h : matchSmall (c :: rest) = true) : c = 'S' ∧ matchRegular rest = true := by
  simpa only [matchSmall, Bool.and_eq_true, beq_iff_eq] using h

lemma matchTiny_head {c : Char} {rest : List Char}
    (h : matchTiny (c :: rest) = true) : c = 'T' ∧ matchRegular rest = true := by
  simpa only [matchTiny, Bool.and_eq_true, beq_iff_eq] using h

lemma regular_small_disjoint (l : List Char) :
    ¬(matchRegular l = true ∧ matchSmall l = true) := by
  rintro ⟨h1, h2⟩
  match l with
  | [] => simp [matchRegular] at h1
  | c :: rest =>
    obtain ⟨hc, _⟩ := matchSmall_head h2
    subst hc
    have := matchRegular_head_mem h1
    simp [inQPNCX] at this

lemma regular_tiny_disjoint (l : List Char) :
    ¬(matchRegular l = true ∧ matchTiny l = true) := by
  rintro ⟨h1, h2⟩
  match l with
  | [] => simp [matchRegular] at h1
  | c :: rest =>
    obtain ⟨hc, _⟩ := matchTiny_head h2
    subst hc
    have := matchRegular_head_mem h1
    simp [inQPNCX] at this

lemma small_tiny_disjoint (l : List Char) :
    ¬(matchSmall l = true ∧ matchTiny l = true) := by
  rintro ⟨h1, h2⟩
  match l with
  | [] => simp [matchSmall] at h1
  | c :: rest =>
    obtain ⟨hc, _⟩ := matchSmall_head h1
    obtain ⟨hc', _⟩ := matchTiny_head h2
    subst hc
    exact absurd hc' (by decide)

/-- Scanning pairwise-disjoint rules is invariant under permutation of the
rule list. -/
lemma firstMatch_congr_perm {r1 r2 : List ((List Char → Bool) × ℚ)}
    (h : r1.Perm r2) :
    r1.Pairwise (fun a b => ∀ l, ¬(a.1 l = true ∧ b.1 l = true)) →
    ∀ l vdw, firstMatch r1 l vdw = firstMatch r2 l vdw := by
  induction h with
  | nil => intro _ l vdw; rfl
  | cons x h ih =>
    intro hp l vdw
    rw [List.pairwise_cons] at hp
    simp only [firstMatch]
    rw [ih hp.2 l vdw]
  | swap x y l' =>
    intro hp l vdw
    rw [List.pairwise_cons] at hp
    have hyx := hp.1 x (List.mem_cons_self x l')
    simp only [firstMatch]
    by_cases hx : x.1 l = true
    · by_cases hy : y.1 l = true
      · exact absurd ⟨hy, hx⟩ (hyx l)
      · simp [hx, hy]
    · by_cases hy : y.1 l = true <;> simp [hx, hy]
  | trans h₁ h₂ ih₁ ih₂ =>
    intro hp l vdw
    have hp₂ := h₁.pairwise hp (fun hab l => by
      intro hc
      exact hab l ⟨hc.2, hc.1⟩)
    rw [ih₁ hp l vdw, ih₂ hp₂ l vdw]

lemma vdw_patterns_pairwise :
    vdw_patterns.Pairwise (fun a b => ∀ l, ¬(a.1 l = true ∧ b.1 l = true)) := by
  refine List.Pairwise.cons ?_ (List.Pairwise.cons ?_ (List.pairwise_singleton _ _))
  · intro b hb l
    rcases List.mem_cons.mp hb with rfl | hb
    · exact regular_small_disjoint l
    · rcases List.mem_singleton.mp hb with rfl
      exact regular_tiny_disjoint l
  · intro b hb l
    rcases List.mem_singleton.mp hb with rfl
    exact small_tiny_disjoint l

/-- C1: the bead classifier is total: for every bead-code string and fallback
it returns a radius; a code matching the (anchored) regular-bead pattern gets
exactly 2.35, an S-prefixed small-bead match gets exactly 2.00, a T-prefixed
tiny-bead match gets exactly 1.65, and a code matching none of the three
patterns gets the fallback value back unchanged. -/
theorem alter_vdw_total_spec (elem : String) (vdw : ℚ) :
    (matchRegular elem.toList = true → alter_vdw elem vdw = 2.35)
    ∧ (matchSmall elem.toList = true → alter_vdw elem vdw = 2.00)
    ∧ (matchTiny elem.toList = true → alter_vdw elem vdw = 1.65)
    ∧ (matchRegular elem.toList = false → matchSmall elem.toList = false →
        matchTiny elem.toList = false → alter_vdw elem vdw = vdw) := by
  refine ⟨fun h => ?_, fun h => ?_, fun h => ?_, fun h1 h2 h3 => ?_⟩
  · simp only [String.toList] at h
    simp [alter_vdw, vdw_patterns, firstMatch, h]
  · have hr : matchRegular elem.toList = false := by
      by_contra hc
      exact regular_small_disjoint elem.toList
        ⟨Bool.of_not_eq_false hc, h⟩
    simp only [String.toList] at h hr
    simp [alter_vdw, vdw_patterns, firstMatch, hr, h]
  · have hr : matchRegular elem.toList = false := by
      by_contra hc
      exact regular_tiny_disjoint elem.toList
        ⟨Bool.of_not_eq_false hc, h⟩
    have hs : matchSmall elem.toList = false := by
      by_contra hc
      exact small_tiny_disjoint elem.toList
        ⟨Bool.of_not_eq_false hc, h⟩
    simp only [String.toList] at h hr hs
    simp [alter_vdw, vdw_patterns, firstMatch, hr, hs, h]
  · simp only [String.toList] at h1 h2 h3
    simp [alter_vdw, vdw_patterns, firstMatch, h1, h2, h3]

/-- Witness for C1: concrete bead codes exercising all four branches (P1 is a
regular bead, SW a small one, TQ1 a tiny one, GLY matches no pattern). -/
theorem alter_vdw_total_spec_witness :
    alter_vdw "P1" 9 = 2.35 ∧ alter_vdw "SW" 9 = 2.00
    ∧ alter_vdw "TQ1" 9 = 1.65 ∧ alter_vdw "GLY" 9 = 9 :=
  ⟨(alter_vdw_total_spec "P1" 9).1 (by decide),
   (alter_vdw_total_spec "SW" 9).2.1 (by decide),
   (alter_vdw_total_spec "TQ1" 9).2.2.1 (by decide),
   (alter_vdw_total_spec "GLY" 9).2.2.2 (by decide) (by decide) (by decide)⟩

/-- C10: the three anchored radius rules have disjoint admissible first
characters (Q, P, N, C, X or W for the regular rule, S for the small rule, T
for the tiny rule), so at most one rule matches any bead code, and scanning
any permutation of the rule list agrees with the fixed first-match-wins order
of the code. -/
theorem vdw_rules_order_irrelevant :
    (∀ c : Char, ∀ rest : List Char,
      (matchRegular (c :: rest) = true → (inQPNCX c || c == 'W') = true)
      ∧ (matchSmall (c :: rest) = true → c = 'S')
      ∧ (matchTiny (c :: rest) = true → c = 'T'))
    ∧ (∀ l : List Char,
        ¬(matchRegular l = true ∧ matchSmall l = true)
        ∧ ¬(matchRegular l = true ∧ matchTiny l = true)
        ∧ ¬(matchSmall l = true ∧ matchTiny l = true))
    ∧ (∀ rules : List ((List Char → Bool) × ℚ), rules.Perm vdw_patterns →
        ∀ elem vdw, firstMatch rules elem.toList vdw = alter_vdw elem vdw) := by
  refine ⟨fun c rest => ⟨matchRegular_head_mem, fun h => (matchSmall_head h).1,
      fun h => (matchTiny_head h).1⟩,
    fun l => ⟨regular_small_disjoint l, regular_tiny_disjoint l,
      small_tiny_disjoint l⟩,
    fun rules hperm elem vdw => ?_⟩
  exact (firstMatch_congr_perm hperm.symm vdw_patterns_pairwise elem.toList vdw).symm

/-- Witness for C10: evaluating the rules with the first two swapped on a
small-bead code still yields the small radius. -/
theorem vdw_rules_order_irrelevant_witness :
    firstMatch [(matchSmall, 2.00), (matchRegular, 2.35), (matchTiny, 1.65)]
        "SP1".toList 9
      = alter_vdw "SP1" 9 :=
  vdw_rules_order_irrelevant.2.2
    [(matchSmall, 2.00), (matchRegular, 2.35), (matchTiny, 1.65)]
    (List.Perm.swap (matchRegular, 2.35) (matchSmall, 2.00) [(matchTiny, 1.65)])
    "SP1" 9

/-! ### Settings exporter: store_settings (src/stir/store_settings.py) -/

/-- Index of the last occurrence of a character in a list, -1 when absent:
the str.rfind used by os.path.splitext. -/
def rfindIdx (c : Char) (l : List Char) : Int :=
  l.enum.foldl (fun acc p => if p.2 == c then (p.1 : Int) else acc) (-1)

/-- Extension component of os.path.splitext on a posix path: the suffix from
the last dot of the final path component, except that dots leading the final
component do not start an extension (splitext of ".py" has no extension). -/
def splitext_ext (p : String) : String :=
  let l := p.toList
  let sepIndex := rfindIdx '/' l
  let dotIndex := rfindIdx '.' l
  if sepIndex < dotIndex then
    if l.enum.any fun q =>
        decide (sepIndex < (q.1 : Int)) && decide ((q.1 : Int) < dotIndex)
          && !(q.2 == '.') then
      String.mk (l.drop dotIndex.toNat)
    else ""
  else ""

/-- A Python value as found in the settings dictionary: the exporter is meant
to accept strings and ints and reject everything else (floats carried as exact
rationals, their numeric meaning is irrelevant to the claims). -/
inductive PyVal
  | str (s : String)
  | int (n : Int)
  | float (q : ℚ)
deriving DecidableEq

/-- A filesystem effect performed by store_settings, in order. -/
inductive FsOp
  | openFile (name : String)
  | writeLine (line : String)
deriving DecidableEq

/-- A Python exception raised by store_settings. -/
inductive PyErr
  | typeErr (msg : String)
  | valueErr (msg : String)
deriving DecidableEq

/-- The for-loop of store_settings.  The source iterates the settings mapping
directly (for setting, value in settings_dict), and iterating a dict yields
its KEYS only; the two-variable unpacking therefore destructures each key
string and succeeds exactly when the key has two characters, binding setting
and value to its two one-character substrings.  Both are then strings, so the
isinstance(value, str) branch always fires and writes a line built from the
key; the int branch and the ValueError branch are unreachable. -/
def write_settings_loop : List FsOp → List String → List FsOp × Option PyErr
  | acc, [] => (acc, none)
  | acc, k :: rest =>
    match k.toList with
    | [c1, c2] =>
      write_settings_loop
        (acc ++ [FsOp.writeLine
          ("cmd.set(\"" ++ String.mk [c1] ++ "\", \"" ++ String.mk [c2] ++ "\")")])
        rest
    | l =>
      (acc, some (PyErr.valueErr
        (if l.length < 2 then "not enough values to unpack (expected 2)"
         else "too many values to unpack (expected 2)")))

/-- store_settings(filename): reject filenames whose splitext extension is not
".py" before touching the filesystem; otherwise open the file, print the
header comment, and run the (buggy) write loop over the keys of the settings
mapping.  Output is the list of filesystem effects in order plus the raised
exception, if any. -/
def store_settings (filename : String) (settings : List (String × PyVal)) :
    List FsOp × Option PyErr :=
  if !(splitext_ext filename == ".py") then
    ([], some (PyErr.typeErr (filename ++ " must be a .py file")))
  else
    write_settings_loop
      [FsOp.openFile filename,
       FsOp.writeLine "# pymol settings file autogenerated by stir\n"]
      (settings.map Prod.fst)

/-- C8: for every filename whose splitext extension is not ".py",
store_settings raises before any filesystem effect: the output file is neither
created nor opened and nothing is written. -/
theorem store_settings_bad_extension (filename : String)
    (settings : List (String × PyVal)) (h : splitext_ext filename ≠ ".py") :
    store_settings filename settings
      = ([], some (PyErr.typeErr (filename ++ " must be a .py file"))) := by
  simp [store_settings, h]

/-- Witness for C8: a .txt filename is rejected with no filesystem effects. -/
theorem store_settings_bad_extension_witness :
    store_settings "settings.txt" [("ab", PyVal.int 1)]
      = ([], some (PyErr.typeErr "settings.txt must be a .py file")) :=
  store_settings_bad_extension "settings.txt" [("ab", PyVal.int 1)] (by decide)

/-- C9: the write loop iterates the settings mapping directly (keys only)
while unpacking (setting, value) pairs, so on a valid filename and a non-empty
settings mapping whose first key is not a two-character string it raises an
unpacking error after the header was already written: the file holds exactly
the header and no setting lines. -/
lemma store_settings_eq_loop (filename : String)
    (settings : List (String × PyVal)) (hext : splitext_ext filename = ".py") :
    store_settings filename settings
      = write_settings_loop
          [FsOp.openFile filename,
           FsOp.writeLine "# pymol settings file autogenerated by stir\n"]
          (settings.map Prod.fst) := by
  simp [store_settings, hext]

lemma write_settings_loop_bad_first (acc : List FsOp) (k : String)
    (ks : List String) (hk : k.toList.length ≠ 2) :
    write_settings_loop acc (k :: ks)
      = (acc, some (PyErr.valueErr
          (if k.toList.length < 2 then "not enough values to unpack (expected 2)"
           else "too many values to unpack (expected 2)"))) := by
  match hkl : k.toList with
  | [] =>
    have hd : k.data = [] := hkl
    simp [write_settings_loop, String.toList, hd]
  | [c1] =>
    have hd : k.data = [c1] := hkl
    simp [write_settings_loop, String.toList, hd]
  | [c1, c2] => exact absurd (by rw [hkl]; rfl) hk
  | c1 :: c2 :: c3 :: t =>
    have hd : k.data = c1 :: c2 :: c3 :: t := hkl
    simp [write_settings_loop, String.toList, hd]

/-- C9: the write loop iterates the settings mapping directly (keys only)
while unpacking (setting, value) pairs, so on a valid filename and a non-empty
settings mapping whose first key is not a two-character string it raises an
unpacking error after the header was already written: the file holds exactly
the header and no setting lines. -/
theorem store_settings_unpack_bug (filename k : String) (v : PyVal)
    (rest : List (String × PyVal)) (hext : splitext_ext filename = ".py")
    (hk : k.toList.length ≠ 2) :
    (store_settings filename ((k, v) :: rest)).1
        = [FsOp.openFile filename,
           FsOp.writeLine "# pymol settings file autogenerated by stir\n"]
    ∧ (store_settings filename ((k, v) :: rest)).2
        = some (PyErr.valueErr
            (if k.toList.length < 2 then "not enough values to unpack (expected 2)"
             else "too many values to unpack (expected 2)")) := by
  rw [store_settings_eq_loop filename ((k, v) :: rest) hext,
    show ((k, v) :: rest).map Prod.fst = k :: rest.map Prod.fst from rfl,
    write_settings_loop_bad_first _ k _ hk]
  exact ⟨rfl, rfl⟩

/-- Witness for C9: exporting a mapping whose first key is the
three-character string "ray" writes the header and then crashes. -/
theorem store_settings_unpack_bug_witness :
    (store_settings "/tmp/pymol_settings.py" [("ray", PyVal.int 0)]).1
        = [FsOp.openFile "/tmp/pymol_settings.py",
           FsOp.writeLine "# pymol settings file autogenerated by stir\n"]
    ∧ (store_settings "/tmp/pymol_settings.py" [("ray", PyVal.int 0)]).2
        = some (PyErr.valueErr "too many values to unpack (expected 2)") := by
  have h := store_settings_unpack_bug "/tmp/pymol_settings.py" "ray" (PyVal.int 0)
    [] (by decide) (by decide)
  exact ⟨h.1, by rw [h.2]; decide⟩

/-- C7 is a code bug: a settings mapping with a float-valued entry does NOT
make store_settings raise.  With the two-character key "ab" mapped to the
float 2.5, the export completes without error and writes a line derived from
the key, never inspecting the float: the unreachable ValueError branch shows
the intent the spec states, and the missing .items() is the slip. -/
theorem store_settings_float_not_rejected :
    store_settings "/tmp/pymol_settings.py" [("ab", PyVal.float (5 / 2))]
      = ([FsOp.openFile "/tmp/pymol_settings.py",
          FsOp.writeLine "# pymol settings file autogenerated by stir\n",
          FsOp.writeLine "cmd.set(\"a\", \"b\")"], none) := by
  decide

/-! ### Color palette: the colors list of nice_settings (src/stir/mt_nice.py
lines 20-59), with the host color registry modelled as an association list in
which a color handle is the position of the first registration of its name. -/

/-- The literal 26-entry palette list of nice_settings. -/
def colors : List (Nat × Nat × Nat) :=
  [(240, 163, 255),
   (0, 117, 220),
   (153, 63, 0),
   (76, 0, 92),
   (25, 25, 25),
   (0, 92, 49),
   (43, 206, 72),
   (255, 204, 153),
   (128, 128, 128),
   (148, 255, 181),
   (143, 124, 0),
   (157, 204, 0),
   (194, 0, 136),
   (0, 51, 128),
   (255, 164, 5),
   (255, 168, 187),
   (66, 102, 0),
   (255, 0, 16),
   (94, 241, 242),
   (0, 153, 143),
   (224, 255, 102),
   (116, 10, 255),
   (153, 0, 0),
   (255, 255, 128),
   (255, 255, 0),
   (255, 80, 5)]

/-- The host color registry: registered names with their RGB values, in
registration order. -/
abbrev ColorState : Type := List (String × (Nat × Nat × Nat))

/-- cmd.set_color(name, rgb): registering a fresh name appends it; registering
an existing name keeps its slot (and hence its handle) and updates the value. -/
def set_color : ColorState → String → Nat × Nat × Nat → ColorState
  | [], n, rgb => [(n, rgb)]
  | (m, rgb0) :: rest, n, rgb =>
    if m == n then (m, rgb) :: rest else (m, rgb0) :: set_color rest n rgb

/-- cmd.get_color_index(name): the opaque handle the host resolved for a
registered color name, modelled as its slot position. -/
def get_color_index (st : ColorState) (n : String) : Option Nat :=
  List.findIdx? (fun p => p.1 == n) st

/-- The palette-building part of nice_settings: register mt_color_i for every
palette entry in list order, then resolve the handle of every registered name
in the same order into stored.mt_colors.  Returns the updated host registry
and the handle list. -/
def build_palette (st : ColorState) : ColorState × List (Option Nat) :=
  let st1 := colors.enum.foldl
    (fun s p => set_color s ("mt_color_" ++ toString p.1) p.2) st
  let names := colors.enum.map fun p => "mt_color_" ++ toString p.1
  (st1, names.map fun n => get_color_index st1 n)

/-- C6: the palette builder registers exactly 26 fixed RGB triples, the first
being (240,163,255) and the last (255,80,5); starting from the fresh host
registry it stores the 26 handles in registration order, and invoking it again
within the same process re-registers the same name-value pairs, leaves the
registry unchanged and yields the same 26-entry handle sequence. -/
theorem build_palette_spec :
    colors.length = 26
    ∧ colors.head? = some (240, 163, 255)
    ∧ colors.getLast? = some (255, 80, 5)
    ∧ (build_palette []).2 = (List.range 26).map some
    ∧ build_palette ((build_palette []).1) = build_palette [] := by
  exact ⟨rfl, rfl, rfl, by decide, by decide⟩

/-- stored.mt_colors as built by nice_settings on a fresh host: the palette
handles, in registration order. -/
def stored_mt_colors : List Nat := ((build_palette []).2).filterMap id

lemma stored_mt_colors_eq : stored_mt_colors = List.range 26 := by decide

/-! ### Color allocator: mt_color (src/stir/mt_nice.py lines 197-219).
The atoms of the selection are abstracted to the list of values their chosen
attribute has (in iteration order), and the random.choice results are an
explicit stream of draws, one per atom visited by cmd.iterate. -/

/-- Python dict assignment d[k] = v: overwrite the value of an existing key in
place, append a fresh key. -/
def dictInsert : List (String × Nat) → String → Nat → List (String × Nat)
  | [], k, v => [(k, v)]
  | (m, w) :: rest, k, v =>
    if m == k then (m, v) :: rest else (m, w) :: dictInsert rest k v

/-- mt_color(method, selection): reset stored.tmp_dict to the empty dict, then
cmd.iterate writes a fresh random draw into tmp_dict under every visited
atom-attribute value (later atoms overwrite earlier draws for the same value),
then cmd.alter reads every atom-s color from the final dict, and finally
stored.tmp_dict is reset to the empty dict again.  The result is the color
list (in atom order) and the final stored.tmp_dict. -/
def mt_color_run (stored_tmp : List (String × Nat)) (attrs : List String)
    (draws : List Nat) : List Nat × List (String × Nat) :=
  let d0 : List (String × Nat) := []
  let d := (attrs.zip draws).foldl (fun acc p => dictInsert acc p.1 p.2) d0
  let cols := attrs.map fun a => (d.lookup a).getD 0
  (cols, [])

lemma lookup_dictInsert_self (d : List (String × Nat)) (k : String) (v : Nat) :
    (dictInsert d k v).lookup k = some v := by
  induction d with
  | nil => simp [dictInsert, List.lookup]
  | cons p rest ih =>
    obtain ⟨m, w⟩ := p
    by_cases h : m = k
    · subst h
      simp [dictInsert, List.lookup]
    · have hb : (m == k) = false := beq_eq_false_iff_ne.mpr h
      have hb2 : (k == m) = false := beq_eq_false_iff_ne.mpr (Ne.symm h)
      simp [dictInsert, List.lookup, hb, hb2, ih]

lemma lookup_dictInsert_ne (d : List (String × Nat)) (k a : String) (v : Nat)
    (h : a ≠ k) : (dictInsert d k v).lookup a = d.lookup a := by
  have hak : (a == k) = false := beq_eq_false_iff_ne.mpr h
  induction d with
  | nil => simp [dictInsert, List.lookup, hak]
  | cons p rest ih =>
    obtain ⟨m, w⟩ := p
    by_cases hm : m = k
    · subst hm
      simp [dictInsert, List.lookup, hak]
    · have hb : (m == k) = false := beq_eq_false_iff_ne.mpr hm
      cases hap : (a == m) <;> simp [dictInsert, List.lookup, hb, hap, ih]

lemma lookup_foldl_dictInsert {pairs : List (String × Nat)}
    {d : List (String × Nat)} {a : String} {v : Nat}
    (h : ((pairs.foldl (fun acc p => dictInsert acc p.1 p.2) d).lookup a)
      = some v) : (a, v) ∈ pairs ∨ d.lookup a = some v := by
  induction pairs generalizing d with
  | nil => exact Or.inr h
  | cons p ps ih =>
    rcases ih h with hmem | hd
    · exact Or.inl (List.mem_cons_of_mem _ hmem)
    · by_cases hk : p.1 = a
      · subst hk
        rw [lookup_dictInsert_self] at hd
        cases hd
        exact Or.inl (by simp)
      · rw [lookup_dictInsert_ne _ _ _ _ (Ne.symm hk)] at hd
        exact Or.inr hd

lemma lookup_foldl_isSome {pairs : List (String × Nat)}
    {d : List (String × Nat)} {a : String}
    (h : a ∈ pairs.map Prod.fst ∨ (d.lookup a).isSome = true) :
    ((pairs.foldl (fun acc p => dictInsert acc p.1 p.2) d).lookup a).isSome
      = true := by
  induction pairs generalizing d with
  | nil =>
    rcases h with hmem | hs
    · simp at hmem
    · exact hs
  | cons p ps ih =>
    apply ih
    by_cases hk : p.1 = a
    · subst hk
      right
      rw [lookup_dictInsert_self]
      rfl
    · rcases h with hmem | hs
      · rcases List.mem_cons.mp hmem with heq | hmem2
        · exact absurd heq.symm hk
        · exact Or.inl hmem2
      · right
        rw [lookup_dictInsert_ne _ _ _ _ (Ne.symm hk)]
        exact hs

/-- C4: within one invocation of mt_color, all atoms sharing the same value of
the chosen attribute receive the same color, and every assigned color is a
palette handle when every draw is; the per-value assignment does not survive
the call (the result is independent of the incoming stored.tmp_dict, and the
outgoing stored.tmp_dict is empty), and two invocations on the same
selection and attribute can differ: there are admissible draw sequences
producing different colorings. -/
theorem mt_color_spec :
    (∀ st st' : List (String × Nat), ∀ attrs draws,
      mt_color_run st attrs draws = mt_color_run st' attrs draws)
    ∧ (∀ st attrs draws, (mt_color_run st attrs draws).2 = [])
    ∧ (∀ st attrs draws, ∀ i j : Nat, attrs[i]? = attrs[j]? →
        ((mt_color_run st attrs draws).1)[i]?
          = ((mt_color_run st attrs draws).1)[j]?)
    ∧ (∀ st attrs draws, draws.length = attrs.length →
        (∀ x ∈ draws, x ∈ stored_mt_colors) →
        ∀ c ∈ (mt_color_run st attrs draws).1, c ∈ stored_mt_colors)
    ∧ (∃ (attrs : List String) (d1 d2 : List Nat),
        (∀ x ∈ d1, x ∈ stored_mt_colors) ∧ (∀ x ∈ d2, x ∈ stored_mt_colors)
        ∧ d1.length = attrs.length ∧ d2.length = attrs.length
        ∧ (mt_color_run [] attrs d1).1 ≠ (mt_color_run [] attrs d2).1) := by
  refine ⟨fun st st' attrs draws => rfl, fun st attrs draws => rfl,
    fun st attrs draws i j hij => ?_, fun st attrs draws hlen hpal c hc => ?_,
    ⟨["x"], [0], [1], ?_, ?_, rfl, rfl, by decide⟩⟩
  · simp only [mt_color_run, List.getElem?_map, hij]
  · simp only [mt_color_run, List.mem_map] at hc
    obtain ⟨a, ha, hca⟩ := hc
    have hsm : (((attrs.zip draws).foldl
        (fun acc p => dictInsert acc p.1 p.2) []).lookup a).isSome = true := by
      apply lookup_foldl_isSome
      left
      rw [List.map_fst_zip attrs draws (le_of_eq hlen.symm)]
      exact ha
    cases hlk : ((attrs.zip draws).foldl
        (fun acc p => dictInsert acc p.1 p.2) []).lookup a with
    | none => rw [hlk] at hsm; simp at hsm
    | some v =>
      rcases lookup_foldl_dictInsert hlk with hmem | hnil
      · have hv : v ∈ draws := (List.of_mem_zip hmem).2
        rw [hlk] at hca
        simp only [Option.getD_some] at hca
        rw [← hca]
        exact hpal v hv
      · simp [List.lookup] at hnil
  · intro x hx
    rcases List.mem_singleton.mp hx with rfl
    rw [stored_mt_colors_eq]
    decide
  · intro x hx
    rcases List.mem_singleton.mp hx with rfl
    rw [stored_mt_colors_eq]
    decide

/-- Witness for C4: on the attribute list A, B, A the first and third atoms
share their attribute value and get the same color. -/
theorem mt_color_spec_witness :
    ((mt_color_run [] ["A", "B", "A"] [3, 4, 5]).1)[0]?
      = ((mt_color_run [] ["A", "B", "A"] [3, 4, 5]).1)[2]? :=
  mt_color_spec.2.2.1 [] ["A", "B", "A"] [3, 4, 5] 0 2 (by decide)

/-! ### Selector registry: stored.mt_selectors (src/stir/mt_nice.py lines
62-70).  The PyMOL selection expressions used by the registry are embedded as
a small expression language with an evaluator over an atom model; rendering an
expression back to its source string ties each embedded expression to the
literal selection string of the registry. -/

/-- The atom attributes the seven selector expressions test. -/
structure Atom where
  name : String
  resn : String
  protein : Bool
  nucleic : Bool
  organic : Bool

/-- The fragment of the PyMOL selection language used by stored.mt_selectors:
the polymer.protein / polymer.nucleic / organic classifiers, residue-name and
atom-name tests (the latter with a trailing-star wildcard), boolean
connectives, and a reference to a previously created named selection. -/
inductive SelExpr
  | protPolymer
  | nuclPolymer
  | organic
  | resn (r : String)
  | namePat (p : String)
  | conj (a b : SelExpr)
  | disj (a b : SelExpr)
  | neg (a : SelExpr)
  | named (s : String)
deriving DecidableEq

/-- Render an embedded selection expression back to its PyMOL source text. -/
def SelExpr.render : SelExpr → String
  | .protPolymer => "polymer.protein"
  | .nuclPolymer => "polymer.nucleic"
  | .organic => "organic"
  | .resn r => "resn " ++ r
  | .namePat p => "name " ++ p
  | .conj a b => a.render ++ " and " ++ b.render
  | .disj a b => a.render ++ " or " ++ b.render
  | .neg a => "not " ++ a.render
  | .named s => s

/-- Evaluate a selection expression on an atom.  The environment carries the
named selections already created (mt_sele creates them in registry order, so
an expression only sees the selections registered before it).  A name test
with a trailing star is a prefix match, otherwise an exact match. -/
def SelExpr.eval (env : List (String × (Atom → Bool))) (a : Atom) :
    SelExpr → Bool
  | .protPolymer => a.protein
  | .nuclPolymer => a.nucleic
  | .organic => a.organic
  | .resn r => a.resn == r
  | .namePat p =>
    match p.toList.getLast? with
    | some '*' => List.isPrefixOf p.toList.dropLast a.name.toList
    | _ => a.name == p
  | .conj x y => x.eval env a && y.eval env a
  | .disj x y => x.eval env a || y.eval env a
  | .neg x => !(x.eval env a)
  | .named s =>
    match env.lookup s with
    | some f => f a
    | none => false

/-- The literal selector registry stored.mt_selectors: name-expression pairs
in insertion order. -/
def mt_selectors : List (String × String) :=
  [("prot", "polymer.protein"),
   ("BB", "polymer.protein and name BB"),
   ("SC", "polymer.protein and name SC*"),
   ("solv", "resn W or resn WN or resn ION"),
   ("ions", "resn ION"),
   ("lip", "organic and not ions"),
   ("nucl", "polymer.nucleic")]

/-- The registry expressions in embedded form, same names, same order. -/
def mt_selectors_ast : List (String × SelExpr) :=
  [("prot", .protPolymer),
   ("BB", .conj .protPolymer (.namePat "BB")),
   ("SC", .conj .protPolymer (.namePat "SC*")),
   ("solv", .disj (.resn "W") (.disj (.resn "WN") (.resn "ION"))),
   ("ions", .resn "ION"),
   ("lip", .conj .organic (.neg (.named "ions"))),
   ("nucl", .nuclPolymer)]

/-- Resolve the registry the way mt_sele creates the named selections: in
order, each selection evaluated against the environment of those created
before it. -/
def resolveSelectors (l : List (String × SelExpr)) :
    List (String × (Atom → Bool)) :=
  l.foldl (fun env p => env ++ [(p.1, fun a => p.2.eval env a)]) []

/-- The predicate the resolved registry associates to a selector name (false
for unknown names). -/
def selPred (k : String) (a : Atom) : Bool :=
  match (resolveSelectors mt_selectors_ast).lookup k with
  | some f => f a
  | none => false

/-- C5: the selector registry holds exactly the seven names prot, BB, SC,
solv, ions, lip, nucl; the embedded expressions render back to the literal
registry entries; and the resolved predicates have the stated semantics:
prot selects protein-polymer atoms, BB and SC protein beads by atom-name
(exact BB, prefix SC), solv the residue names W, WN and ION, ions the residue
name ION only, lip organic-and-not-ION atoms, nucl nucleic-polymer atoms. -/
theorem mt_selectors_spec :
    mt_selectors.map Prod.fst = ["prot", "BB", "SC", "solv", "ions", "lip", "nucl"]
    ∧ mt_selectors_ast.map (fun p => (p.1, p.2.render)) = mt_selectors
    ∧ ∀ a : Atom,
        selPred "prot" a = a.protein
        ∧ selPred "BB" a = (a.protein && a.name == "BB")
        ∧ selPred "SC" a = (a.protein && List.isPrefixOf "SC".toList a.name.toList)
        ∧ selPred "solv" a = (a.resn == "W" || (a.resn == "WN" || a.resn == "ION"))
        ∧ selPred "ions" a = (a.resn == "ION")
        ∧ selPred "lip" a = (a.organic && !(a.resn == "ION"))
        ∧ selPred "nucl" a = a.nucleic := by
  refine ⟨by decide, by decide, fun a => ?_⟩
  exact ⟨rfl, rfl, rfl, rfl, rfl, rfl, rfl⟩

/-! ### Preset engine: mt_sele, set_vdw and mt_nice (src/stir/mt_nice.py lines
74-165 and 244-280), embedded as host-command traces: each function denotes
the ordered list of host calls it issues. -/

/-- One host (PyMOL) call, as issued by the plugin. -/
inductive HostCmd
  | select (name logic : String)
  | deselect
  | sync
  | set (setting : String) (value : ℚ)
  | alter_vdw (selection : String)
  | mt_color (method selection : String)
  | color (colorName selection : String)
  | show_as (rep selection : String)
  | hide (what selection : String)
  | message (text : String)
deriving DecidableEq

/-- Host calls that mutate host state (everything except printed messages and
synchronization barriers). -/
def HostCmd.isMutating : HostCmd → Bool
  | .message _ => false
  | .sync => false
  | _ => true

/-- mt_sele() with no argument: create the seven registry selections in
registry order, then sync, deselect and sync. -/
def mt_sele_trace : List HostCmd :=
  (mt_selectors.map fun p => HostCmd.select p.1 p.2)
    ++ [HostCmd.sync, HostCmd.deselect, HostCmd.sync]

/-- set_vdw(selection): one cmd.alter applying alter_vdw to every atom of the
selection, then a sync. -/
def set_vdw_trace (selection : String) : List HostCmd :=
  [HostCmd.alter_vdw selection, HostCmd.sync]

/-- A color_method entry of the mt_nice_set table: absent (None), or a
function-with-argument pair ([mt_color, attribute] or [cmd.color, name]). -/
inductive ColorRule
  | noRule
  | mtColorBy (method : String)
  | fixedColor (colorName : String)
deriving DecidableEq

/-- A style entry of the mt_nice_set table: absent (None), or
[cmd.show_as, representation] or [cmd.hide, what]. -/
inductive StyleRule
  | noRule
  | showAsRep (rep : String)
  | hideAll (what : String)
deriving DecidableEq

/-- The per-group pair of entries, in dictionary insertion order:
color_method first, style second. -/
structure GroupCmds where
  color_method : ColorRule
  style : StyleRule
deriving DecidableEq

/-- The literal stored.mt_nice_set table: three presets, each mapping the
seven selector groups (in registry order) to a color rule and a style rule. -/
def mt_nice_set : List (String × List (String × GroupCmds)) :=
  [("clean",
    [("prot", ⟨.noRule, .noRule⟩),
     ("BB", ⟨.mtColorBy "chain", .showAsRep "sticks"⟩),
     ("SC", ⟨.noRule, .hideAll "everything"⟩),
     ("solv", ⟨.noRule, .hideAll "everything"⟩),
     ("ions", ⟨.noRule, .hideAll "everything"⟩),
     ("lip", ⟨.mtColorBy "resn", .showAsRep "sticks"⟩),
     ("nucl", ⟨.mtColorBy "resi", .showAsRep "sticks"⟩)]),
   ("rainbow",
    [("prot", ⟨.noRule, .noRule⟩),
     ("BB", ⟨.mtColorBy "chain", .showAsRep "sticks"⟩),
     ("SC", ⟨.mtColorBy "resn", .showAsRep "sticks"⟩),
     ("solv", ⟨.fixedColor "blue", .showAsRep "nb_spheres"⟩),
     ("ions", ⟨.mtColorBy "name", .showAsRep "nb_spheres"⟩),
     ("lip", ⟨.mtColorBy "resi", .showAsRep "sticks"⟩),
     ("nucl", ⟨.mtColorBy "resn", .showAsRep "sticks"⟩)]),
   ("balls",
    [("prot", ⟨.noRule, .noRule⟩),
     ("BB", ⟨.fixedColor "purple", .showAsRep "spheres"⟩),
     ("SC", ⟨.fixedColor "red", .showAsRep "spheres"⟩),
     ("solv", ⟨.fixedColor "blue", .showAsRep "nb_spheres"⟩),
     ("ions", ⟨.mtColorBy "resn", .showAsRep "nb_spheres"⟩),
     ("lip", ⟨.mtColorBy "resn", .showAsRep "spheres"⟩),
     ("nucl", ⟨.mtColorBy "resi", .showAsRep "spheres"⟩)])]

/-- Run a color_method entry with the scoped selection (the if command: guard
of the source skips falsy entries, i.e. None). -/
def runColorRule (selection : String) : ColorRule → List HostCmd
  | .noRule => []
  | .mtColorBy m => [HostCmd.mt_color m selection]
  | .fixedColor c => [HostCmd.color c selection]

/-- Run a style entry with the scoped selection. -/
def runStyleRule (selection : String) : StyleRule → List HostCmd
  | .noRule => []
  | .showAsRep r => [HostCmd.show_as r selection]
  | .hideAll w => [HostCmd.hide w selection]

/-- mt_nice(style, selection): reject an unknown style with a printed error
and no further call; otherwise run mt_sele, set the stick radius, sync, run
set_vdw over the selection, sync, and then for every selector group of the
preset (in enumeration order) run its color_method entry followed by its
style entry, each scoped to the selection AND the group. -/
def mt_nice_trace (style selection : String) : List HostCmd :=
  if style ∉ (["clean", "rainbow", "balls"] : List String) then
    [HostCmd.message ("Error: " ++ style ++ " is not a valid option. See help mt_nice")]
  else
    mt_sele_trace
      ++ [HostCmd.set "stick_radius" (7 / 10), HostCmd.sync]
      ++ set_vdw_trace selection ++ [HostCmd.sync]
      ++ ((mt_nice_set.lookup style).getD []).flatMap fun g =>
           runColorRule (selection ++ " and " ++ g.1) g.2.color_method
             ++ runStyleRule (selection ++ " and " ++ g.1) g.2.style

/-- C2: for every preset name outside the closed set clean, rainbow, balls,
mt_nice only prints an error: its trace is the single error message and
contains no mutating host call whatsoever (no selection creation, no
stick_radius set, no radius, color or representation change). -/
theorem mt_nice_invalid_preset (style selection : String)
    (h : style ∉ (["clean", "rainbow", "balls"] : List String)) :
    mt_nice_trace style selection
        = [HostCmd.message
            ("Error: " ++ style ++ " is not a valid option. See help mt_nice")]
    ∧ ∀ c ∈ mt_nice_trace style selection, c.isMutating = false := by
  have ht : mt_nice_trace style selection
      = [HostCmd.message
          ("Error: " ++ style ++ " is not a valid option. See help mt_nice")] := by
    simp [mt_nice_trace, h]
  refine ⟨ht, fun c hc => ?_⟩
  rw [ht] at hc
  rcases List.mem_singleton.mp hc with rfl
  rfl

/-- Witness for C2: the preset name bogus yields exactly one error message. -/
theorem mt_nice_invalid_preset_witness :
    mt_nice_trace "bogus" "all"
      = [HostCmd.message "Error: bogus is not a valid option. See help mt_nice"] :=
  (mt_nice_invalid_preset "bogus" "all" (by decide)).1

/-- The expected trace of mt_nice("clean", selection) per the specified step
order: resolve the seven registry groups, set the global stick radius, run
the bead classifier over the selection, then per group (registry order) the
color rule, if present, followed by the style rule, if present, scoped to
the selection AND the group; groups with absent entries contribute nothing. -/
def clean_expected (selection : String) : List HostCmd :=
  [.select "prot" "polymer.protein",
   .select "BB" "polymer.protein and name BB",
   .select "SC" "polymer.protein and name SC*",
   .select "solv" "resn W or resn WN or resn ION",
   .select "ions" "resn ION",
   .select "lip" "organic and not ions",
   .select "nucl" "polymer.nucleic",
   .sync, .deselect, .sync,
   .set "stick_radius" (7 / 10), .sync,
   .alter_vdw selection, .sync, .sync,
   .mt_color "chain" (selection ++ " and BB"),
   .show_as "sticks" (selection ++ " and BB"),
   .hide "everything" (selection ++ " and SC"),
   .hide "everything" (selection ++ " and solv"),
   .hide "everything" (selection ++ " and ions"),
   .mt_color "resn" (selection ++ " and lip"),
   .show_as "sticks" (selection ++ " and lip"),
   .mt_color "resi" (selection ++ " and nucl"),
   .show_as "sticks" (selection ++ " and nucl")]

/-- The expected trace of mt_nice("rainbow", selection), as for
clean_expected. -/
def rainbow_expected (selection : String) : List HostCmd :=
  [.select "prot" "polymer.protein",
   .select "BB" "polymer.protein and name BB",
   .select "SC" "polymer.protein and name SC*",
   .select "solv" "resn W or resn WN or resn ION",
   .select "ions" "resn ION",
   .select "lip" "organic and not ions",
   .select "nucl" "polymer.nucleic",
   .sync, .deselect, .sync,
   .set "stick_radius" (7 / 10), .sync,
   .alter_vdw selection, .sync, .sync,
   .mt_color "chain" (selection ++ " and BB"),
   .show_as "sticks" (selection ++ " and BB"),
   .mt_color "resn" (selection ++ " and SC"),
   .show_as "sticks" (selection ++ " and SC"),
   .color "blue" (selection ++ " and solv"),
   .show_as "nb_spheres" (selection ++ " and solv"),
   .mt_color "name" (selection ++ " and ions"),
   .show_as "nb_spheres" (selection ++ " and ions"),
   .mt_color "resi" (selection ++ " and lip"),
   .show_as "sticks" (selection ++ " and lip"),
   .mt_color "resn" (selection ++ " and nucl"),
   .show_as "sticks" (selection ++ " and nucl")]

/-- The expected trace of mt_nice("balls", selection), as for
clean_expected. -/
def balls_expected (selection : String) : List HostCmd :=
  [.select "prot" "polymer.protein",
   .select "BB" "polymer.protein and name BB",
   .select "SC" "polymer.protein and name SC*",
   .select "solv" "resn W or resn WN or resn ION",
   .select "ions" "resn ION",
   .select "lip" "organic and not ions",
   .select "nucl" "polymer.nucleic",
   .sync, .deselect, .sync,
   .set "stick_radius" (7 / 10), .sync,
   .alter_vdw selection, .sync, .sync,
   .color "purple" (selection ++ " and BB"),
   .show_as "spheres" (selection ++ " and BB"),
   .color "red" (selection ++ " and SC"),
   .show_as "spheres" (selection ++ " and SC"),
   .color "blue" (selection ++ " and solv"),
   .show_as "nb_spheres" (selection ++ " and solv"),
   .mt_color "resn" (selection ++ " and ions"),
   .show_as "nb_spheres" (selection ++ " and ions"),
   .mt_color "resn" (selection ++ " and lip"),
   .show_as "spheres" (selection ++ " and lip"),
   .mt_color "resi" (selection ++ " and nucl"),
   .show_as "spheres" (selection ++ " and nucl")]

/-- C3: for each valid preset name the mt_nice trace is exactly the expected
step sequence: the seven registry selections first, then the constant stick
radius, then the bead classifier over the selection, then per selector group
in enumeration order the color rule (if present) followed by the style rule
(if present), each scoped to selection AND group; and an absent rule entry
contributes no host call at all. -/
theorem mt_nice_valid_order (selection : String) :
    mt_nice_trace "clean" selection = clean_expected selection
    ∧ mt_nice_trace "rainbow" selection = rainbow_expected selection
    ∧ mt_nice_trace "balls" selection = balls_expected selection
    ∧ (∀ s : String, runColorRule s ColorRule.noRule = []
        ∧ runStyleRule s StyleRule.noRule = []) := by
  refine ⟨?_, ?_, ?_, fun s => ⟨rfl, rfl⟩⟩ <;>
    (unfold mt_nice_trace
     rw [if_neg (by decide)]
     simp [mt_sele_trace, mt_selectors, set_vdw_trace, mt_nice_set,
       clean_expected, rainbow_expected, balls_expected, runColorRule,
       runStyleRule, String.append_assoc, List.lookup])

end Stir
